import Mathlib

/-!
Shallow embedding of `examples/optimize_type.py` (the `optimize_type` function
and the pieces of its environment that it uses), together with proofs about it.

Modelling conventions:
* the scalar element type of a torch tensor of floats is a linearly ordered
  type `α` (instantiated with `ℤ` in concrete runs); a tensor is a flat list
  of such scalars;
* the external collaborators (the `CharacterModel`, `torch.optim.Adam`, the
  sampling and rendering routines) are abstracted as an `Env` record of
  deterministic functions: the source treats them as opaque library calls;
* in-place mutation of the character type's parameters and of the matplotlib
  figure becomes explicit state passing through `LoopState`;
* Python exceptions (`idx % interval` with `interval == 0` would raise
  `ZeroDivisionError`) are modelled with `Except String`;
* `np.round(nb_iter, -1)` on a nonnegative integer is `round10` below:
  rounding to the nearest multiple of ten with ties going to the even
  multiple (numpy rounds the scaled value half-to-even).
-/

deriving instance DecidableEq for Except

namespace PyBPL

variable {α : Type} [LinearOrder α] {σ Tok Img : Type}

/-- A parameter tensor: a flat list of scalar element values. -/
abbrev Tensor (α : Type) : Type := List α

/-- Element-wise maximum with a bound tensor: `torch.max(param, lb, out=param)`. -/
def tensorMax (p b : Tensor α) : Tensor α := List.zipWith max p b

/-- Element-wise minimum with a bound tensor: `torch.min(param, ub, out=param)`. -/
def tensorMin (p b : Tensor α) : Tensor α := List.zipWith min p b

/-- Projection of one parameter into its bounds, exactly as one pass of the
loop body `if lb is not None: torch.max(param, lb, out=param); if ub is not
None: torch.min(param, ub, out=param)`: the lower clamp is applied first,
the upper clamp second, an absent bound is skipped. -/
def projectParam (p : Tensor α) (lb ub : Option (Tensor α)) : Tensor α :=
  let p1 := match lb with
    | none => p
    | some l => tensorMax p l
  match ub with
  | none => p1
  | some u => tensorMin p1 u

/-- The projection loop `for param, lb, ub in zip(params, lbs, ubs)`: `zip`
stops at the shortest list, and parameters without a corresponding bound
entry are left as they are (the mutation is in place). -/
def projectParams [LinearOrder α] :
    List (Tensor α) → List (Option (Tensor α)) → List (Option (Tensor α)) → List (Tensor α)
  | p :: ps, lb :: lbs, ub :: ubs => projectParam p lb ub :: projectParams ps lbs ubs
  | ps, _, _ => ps

/-- Embedding of `np.round(n, -1)` for a nonnegative integer `n`: round to the
nearest multiple of ten, resolving the tie `n % 10 = 5` to the even multiple
(round-half-to-even on the scaled value `n / 10`). -/
def round10 (n : Nat) : Nat :=
  if n % 10 < 5 then 10 * (n / 10)
  else if 5 < n % 10 then 10 * (n / 10) + 10
  else if (n / 10) % 2 = 0 then 10 * (n / 10) else 10 * (n / 10) + 10

/-- The slice of a `CharacterType` that `optimize_type` uses: its ordered
parameter list (`c.parameters()`) and, given the tolerance `eps`, the aligned
lists of optional lower and upper bounds (`c.lbs(eps)`, `c.ubs(eps)`). -/
structure CharacterType (α : Type) where
  parameters : List (Tensor α)
  lbs : α → List (Option (Tensor α))
  ubs : α → List (Option (Tensor α))

/-- The external collaborators used by `optimize_type`, abstracted as
deterministic functions of the current parameter values:
`score_type` is `model.score_type(c).item()`;
`adamInit params lr` is `torch.optim.Adam(params, lr=lr)` (the fresh
optimizer state); `adamStep o p` is one `zero_grad / backward / step`
round on state `o` and parameters `p`, returning the new state and the
updated parameters; `sample_token p i` is the `i`-th of the four draws of
`model.sample_token(c)` at a checkpoint, and `sample_image` renders a token
to an image. -/
structure Env (α σ Tok Img : Type) where
  score_type : List (Tensor α) → α
  adamInit : List (Tensor α) → α → σ
  adamStep : σ → List (Tensor α) → σ × List (Tensor α)
  sample_token : List (Tensor α) → Nat → Tok
  sample_image : Tok → Img

/-- The mutable state threaded through the optimization loop: the optimizer
state, the parameter values of the character type (mutated in place in the
source), the growing `score_list`, and the observable diagnostic side
effects: `notifs` records the printed `iteration #%i` indices, `grid` the
`(row, column, image)` writes into the 10x4 axes grid, `labels` the
`(row, iteration)` ylabel writes. -/
structure LoopState (α σ Img : Type) where
  opt : σ
  params : List (Tensor α)
  scores : List α
  notifs : List Nat
  grid : List (Nat × Nat × Img)
  labels : List (Nat × Nat)
deriving DecidableEq

/-- One iteration of the `for idx in range(nb_iter)` loop body.  The guard
`idx % interval` raises `ZeroDivisionError` in Python when `interval = 0`,
modelled by `Except.error`.  On a checkpoint the progress line is printed
and, when `show_examples` is set, four sampled images and a row label are
written into row `idx / interval` of the grid; then the score of the current
type is appended to the trajectory, one Adam step is taken, and the
parameters are projected into their bounds. -/
def loopBody (E : Env α σ Tok Img) (lbs ubs : List (Option (Tensor α)))
    (interval : Nat) (show_examples : Bool) (st : LoopState α σ Img) (idx : Nat) :
    Except String (LoopState α σ Img) :=
  if interval = 0 then
    Except.error "ZeroDivisionError: integer division or modulo by zero"
  else
    let st1 :=
      if idx % interval = 0 then
        let stn := { st with notifs := st.notifs ++ [idx] }
        if show_examples then
          { stn with
            grid := stn.grid ++ (List.range 4).map
              (fun i => (idx / interval, i, E.sample_image (E.sample_token st.params i))),
            labels := stn.labels ++ [(idx / interval, idx)] }
        else stn
      else st
    let st2 := { st1 with scores := st1.scores ++ [E.score_type st1.params] }
    let su := E.adamStep st2.opt st2.params
    Except.ok { st2 with opt := su.1, params := projectParams su.2 lbs ubs }

/-- Embedding of `optimize_type(model, c, lr, nb_iter, eps, show_examples)`.
`nb_iter` is first rounded to the nearest ten, the bounds are read off the
character type, a fresh Adam state is created, the checkpoint interval is
`int(nb_iter / 10)` (exact, since the rounded count is a multiple of ten),
and the loop runs over `range(nb_iter)`.  The source returns `score_list`
and mutates `c` in place; the embedding returns the whole final state, whose
`scores` field is the returned trajectory and whose `params` field holds the
mutated parameter values. -/
def optimize_type (E : Env α σ Tok Img) (c : CharacterType α) (lr : α)
    (nb_iter : Nat) (eps : α) (show_examples : Bool) :
    Except String (LoopState α σ Img) :=
  let nb := round10 nb_iter
  let params := c.parameters
  let lbs := c.lbs eps
  let ubs := c.ubs eps
  let optimizer := E.adamInit params lr
  let interval := nb / 10
  (List.range nb).foldlM (loopBody E lbs ubs interval show_examples)
    { opt := optimizer, params := params, scores := [], notifs := [],
      grid := [], labels := [] }

/-- One purely functional optimization step: the Adam update followed by the
projection, acting on the pair (optimizer state, parameters). -/
def optIter (E : Env α σ Tok Img) (lbs ubs : List (Option (Tensor α)))
    (s : σ × List (Tensor α)) : σ × List (Tensor α) :=
  let su := E.adamStep s.1 s.2
  (su.1, projectParams su.2 lbs ubs)

/-- The (optimizer state, parameters) pair at the start of iteration `k`,
that is, after `k` complete update-and-project steps from the initial data. -/
def optStateAt (E : Env α σ Tok Img) (lbs ubs : List (Option (Tensor α)))
    (o0 : σ) (p0 : List (Tensor α)) : Nat → σ × List (Tensor α)
  | 0 => (o0, p0)
  | k + 1 => optIter E lbs ubs (optStateAt E lbs ubs o0 p0 k)

/-- The score trajectory over `k` iterations: the `i`-th entry is the score
of the parameters as they stand at the start of iteration `i`. -/
def traj (E : Env α σ Tok Img) (lbs ubs : List (Option (Tensor α)))
    (o0 : σ) (p0 : List (Tensor α)) (k : Nat) : List α :=
  (List.range k).map (fun i => E.score_type (optStateAt E lbs ubs o0 p0 i).2)

/-- The checkpoint iterations among the first `k`: those with
`idx % interval = 0`, in iteration order. -/
def checkpoints (interval k : Nat) : List Nat :=
  (List.range k).filter (fun i => i % interval = 0)

/-- The grid writes accumulated over `k` iterations when diagnostics are
enabled: four images per checkpoint, in row `idx / interval`, sampled from
the parameters as they stand at the start of the checkpoint iteration. -/
def gridOf (E : Env α σ Tok Img) (lbs ubs : List (Option (Tensor α)))
    (o0 : σ) (p0 : List (Tensor α)) (interval : Nat) (se : Bool) (k : Nat) :
    List (Nat × Nat × Img) :=
  if se then
    (checkpoints interval k).flatMap (fun idx =>
      (List.range 4).map (fun i =>
        (idx / interval, i,
          E.sample_image (E.sample_token (optStateAt E lbs ubs o0 p0 idx).2 i))))
  else []

/-- The ylabel writes accumulated over `k` iterations when diagnostics are
enabled: one `(row, iteration)` pair per checkpoint. -/
def labelsOf (interval : Nat) (se : Bool) (k : Nat) : List (Nat × Nat) :=
  if se then (checkpoints interval k).map (fun idx => (idx / interval, idx)) else []

/-- Value satisfies an optional lower bound, element-wise up to the common
length: every paired element of the bound is at most the value's element. -/
def lowerOk (p : Tensor α) : Option (Tensor α) → Bool
  | none => true
  | some l => (List.zip l p).all (fun x => x.1 ≤ x.2)

/-- Value satisfies an optional upper bound, element-wise up to the common
length: every paired element of the value is at most the bound's element. -/
def upperOk (p : Tensor α) : Option (Tensor α) → Bool
  | none => true
  | some u => (List.zip p u).all (fun x => x.1 ≤ x.2)

/-- A bound pair is well ordered: wherever both bounds are present, the lower
bound is element-wise at most the upper bound. -/
def boundPairLe : Option (Tensor α) → Option (Tensor α) → Bool
  | some l, some u => (List.zip l u).all (fun x => x.1 ≤ x.2)
  | _, _ => true

/-- Shape agreement between a value and an optional bound. -/
def shapeOk (p : Tensor α) : Option (Tensor α) → Bool
  | none => true
  | some b => b.length = p.length

/-- A concrete environment over integer scalars and trivial state and image
types: the score reads the first element of the first parameter, and one
optimizer step adds one to every element of every parameter. -/
def envC : Env ℤ Unit Unit Unit where
  score_type := fun ps => (ps.headD []).headD 0
  adamInit := fun _ _ => ()
  adamStep := fun o ps => (o, ps.map (fun t => t.map (fun x => x + 1)))
  sample_token := fun _ _ => ()
  sample_image := fun _ => ()

/-- A concrete character type with one scalar parameter starting at `0` and
no bounds. -/
def cEx : CharacterType ℤ where
  parameters := [[0]]
  lbs := fun _ => [none]
  ubs := fun _ => [none]

/-- A concrete character type with one scalar parameter starting at `0`
and an inverted bound pair: lower bound `1`, upper bound `0`. -/
def cInv : CharacterType ℤ where
  parameters := [[0]]
  lbs := fun _ => [some [1]]
  ubs := fun _ => [some [0]]

theorem traj_succ (E : Env α σ Tok Img) (lbs ubs : List (Option (Tensor α)))
    (o0 : σ) (p0 : List (Tensor α)) (k : Nat) :
    traj E lbs ubs o0 p0 (k + 1) =
      traj E lbs ubs o0 p0 k ++ [E.score_type (optStateAt E lbs ubs o0 p0 k).2] := by
  simp [traj, List.range_succ]

theorem checkpoints_succ (interval k : Nat) :
    checkpoints interval (k + 1) =
      checkpoints interval k ++ (if k % interval = 0 then [k] else []) := by
  by_cases hc : k % interval = 0 <;>
    simp [checkpoints, List.range_succ, List.filter_append, hc]

theorem gridOf_succ (E : Env α σ Tok Img) (lbs ubs : List (Option (Tensor α)))
    (o0 : σ) (p0 : List (Tensor α)) (interval : Nat) (se : Bool) (k : Nat) :
    gridOf E lbs ubs o0 p0 interval se (k + 1) =
      gridOf E lbs ubs o0 p0 interval se k ++
        (if se ∧ k % interval = 0 then
          (List.range 4).map (fun i =>
            (k / interval, i,
              E.sample_image (E.sample_token (optStateAt E lbs ubs o0 p0 k).2 i)))
        else []) := by
  by_cases hse : se <;> by_cases hc : k % interval = 0 <;>
    simp [gridOf, checkpoints_succ, hse, hc, List.flatMap_append]

theorem labelsOf_succ (interval : Nat) (se : Bool) (k : Nat) :
    labelsOf interval se (k + 1) =
      labelsOf interval se k ++
        (if se ∧ k % interval = 0 then [(k / interval, k)] else []) := by
  by_cases hse : se <;> by_cases hc : k % interval = 0 <;>
    simp [labelsOf, checkpoints_succ, hse, hc]

/-- Characterization of the optimization loop over `range k` when the
checkpoint interval is nonzero: the fold never errors, the optimizer state
and parameters advance by `k` update-and-project steps, and the trajectory,
checkpoint prints, grid and label writes are as described by `traj`,
`checkpoints`, `gridOf` and `labelsOf`. -/
theorem loop_spec (E : Env α σ Tok Img) (lbs ubs : List (Option (Tensor α)))
    (interval : Nat) (se : Bool) (o0 : σ) (p0 : List (Tensor α))
    (hI : interval ≠ 0) (k : Nat) :
    (List.range k).foldlM (loopBody E lbs ubs interval se)
      (LoopState.mk o0 p0 [] [] [] []) =
    Except.ok (LoopState.mk
      (optStateAt E lbs ubs o0 p0 k).1 (optStateAt E lbs ubs o0 p0 k).2
      (traj E lbs ubs o0 p0 k) (checkpoints interval k)
      (gridOf E lbs ubs o0 p0 interval se k) (labelsOf interval se k)) := by
  induction k with
  | zero =>
      simp [optStateAt, traj, checkpoints, gridOf, labelsOf]
      rfl
  | succ k ih =>
      rw [List.range_succ, List.foldlM_append, ih]
      have hstep : ∀ st : LoopState α σ Img,
          (Except.ok st >>= fun s =>
            List.foldlM (loopBody E lbs ubs interval se) s [k]) =
          loopBody E lbs ubs interval se st k := by
        intro st
        show List.foldlM (loopBody E lbs ubs interval se) st [k] = _
        rw [List.foldlM_cons]
        cases h : loopBody E lbs ubs interval se st k <;> simp [h, List.foldlM_nil]
      rw [hstep, loopBody, if_neg hI]
      by_cases hse : se <;> by_cases hc : k % interval = 0 <;>
        simp [hse, hc, traj_succ, checkpoints_succ, gridOf_succ, labelsOf_succ,
          optStateAt, optIter]

theorem round10_cases (n : Nat) :
    round10 n = 10 * (n / 10) ∨ round10 n = 10 * (n / 10) + 10 := by
  unfold round10
  split_ifs <;> simp

theorem round10_mul (n : Nat) : 10 * (round10 n / 10) = round10 n := by
  rcases round10_cases n with h | h <;> omega

theorem round10_div_ne (n : Nat) (h : round10 n ≠ 0) : round10 n / 10 ≠ 0 := by
  rcases round10_cases n with h1 | h1 <;> omega

/-- Characterization of `optimize_type`: it never raises, and the returned
state is described componentwise by `optStateAt`, `traj`, `checkpoints`,
`gridOf` and `labelsOf` at the rounded iteration count.  When the count
rounds to zero the loop is empty and no `idx % 0` is ever evaluated. -/
theorem optimize_type_spec (E : Env α σ Tok Img) (c : CharacterType α) (lr : α)
    (nb_iter : Nat) (eps : α) (se : Bool) :
    optimize_type E c lr nb_iter eps se =
      Except.ok (LoopState.mk
        (optStateAt E (c.lbs eps) (c.ubs eps) (E.adamInit c.parameters lr)
          c.parameters (round10 nb_iter)).1
        (optStateAt E (c.lbs eps) (c.ubs eps) (E.adamInit c.parameters lr)
          c.parameters (round10 nb_iter)).2
        (traj E (c.lbs eps) (c.ubs eps) (E.adamInit c.parameters lr)
          c.parameters (round10 nb_iter))
        (checkpoints (round10 nb_iter / 10) (round10 nb_iter))
        (gridOf E (c.lbs eps) (c.ubs eps) (E.adamInit c.parameters lr)
          c.parameters (round10 nb_iter / 10) se (round10 nb_iter))
        (labelsOf (round10 nb_iter / 10) se (round10 nb_iter))) := by
  by_cases h0 : round10 nb_iter = 0
  · simp [optimize_type, h0, optStateAt, traj, checkpoints, gridOf, labelsOf]
    rfl
  · exact loop_spec E (c.lbs eps) (c.ubs eps) (round10 nb_iter / 10) se
      (E.adamInit c.parameters lr) c.parameters (round10_div_ne nb_iter h0)
      (round10 nb_iter)

theorem checkpoints_mem {i n idx : Nat} (h : idx ∈ checkpoints i n) :
    idx < n ∧ idx % i = 0 := by
  simpa [checkpoints, List.mem_filter, List.mem_range] using h

theorem checkpoints_length (i : Nat) (hi : i ≠ 0) (n : Nat) :
    (checkpoints i n).length = (n + i - 1) / i := by
  induction n with
  | zero =>
      simp [checkpoints]
      rw [Nat.div_eq_of_lt (by omega)]
  | succ n ih =>
      rw [checkpoints_succ, List.length_append, ih]
      have h1 : n + 1 + i - 1 = (n + i - 1) + 1 := by omega
      rw [h1, Nat.succ_div]
      have h2 : n + i - 1 + 1 = n + i := by omega
      rw [h2]
      have h3 : (i ∣ n + i) ↔ n % i = 0 := by
        rw [Nat.dvd_iff_mod_eq_zero, Nat.add_mod_right]
      by_cases hc : n % i = 0 <;> simp [hc, h3]

theorem checkpoints_len_ten (i : Nat) (hi : i ≠ 0) :
    (checkpoints i (10 * i)).length = 10 := by
  rw [checkpoints_length i hi]
  have h1 : 10 * i + i - 1 = (i - 1) + i * 10 := by omega
  rw [h1, Nat.add_mul_div_left _ _ (by omega : 0 < i),
    Nat.div_eq_of_lt (by omega)]

theorem upperOk_tensorMin (q u : Tensor α) :
    upperOk (tensorMin q u) (some u) = true := by
  simp only [upperOk, tensorMin, List.all_eq_true]
  intro x hx
  rw [List.mem_iff_getElem] at hx
  obtain ⟨i, hi, rfl⟩ := hx
  rw [List.getElem_zip, List.getElem_zipWith]
  simp

theorem lowerOk_proj (q : Tensor α) (l : Tensor α) (ub : Option (Tensor α))
    (hord : boundPairLe (some l) ub = true) :
    lowerOk (projectParam q (some l) ub) (some l) = true := by
  cases ub with
  | none =>
      simp only [lowerOk, projectParam, tensorMax, List.all_eq_true]
      intro x hx
      rw [List.mem_iff_getElem] at hx
      obtain ⟨i, hi, rfl⟩ := hx
      rw [List.getElem_zip, List.getElem_zipWith]
      simp
  | some u =>
      simp only [lowerOk, projectParam, tensorMax, tensorMin, List.all_eq_true]
      intro x hx
      rw [List.mem_iff_getElem] at hx
      obtain ⟨i, hi, rfl⟩ := hx
      have hiu : i < u.length := by
        have := hi
        simp [List.length_zip, List.length_zipWith] at this
        omega
      have hil : i < l.length := by
        have := hi
        simp [List.length_zip, List.length_zipWith] at this
        omega
      have hlu : l[i] ≤ u[i] := by
        simp only [boundPairLe, List.all_eq_true] at hord
        have := hord (l[i], u[i]) (by
          rw [List.mem_iff_getElem]
          exact ⟨i, by simp [List.length_zip]; omega, List.getElem_zip⟩)
        simpa using this
      rw [List.getElem_zip, List.getElem_zipWith, List.getElem_zipWith]
      simp only [decide_eq_true_eq]
      exact le_min (le_max_right _ _) hlu

theorem upperOk_proj (q : Tensor α) (lb ub : Option (Tensor α)) :
    upperOk (projectParam q lb ub) ub = true := by
  cases ub with
  | none => rfl
  | some u =>
      cases lb with
      | none => exact upperOk_tensorMin q u
      | some l => exact upperOk_tensorMin (tensorMax q l) u

/-- Every aligned (parameter, lower bound, upper bound) triple of the output
of the projection pass satisfies both of its bounds, provided every present
bound pair is well ordered. -/
theorem projectParams_bounds (ps : List (Tensor α))
    (lbs ubs : List (Option (Tensor α)))
    (hord : ∀ t ∈ List.zip lbs ubs, boundPairLe t.1 t.2 = true) :
    ∀ t ∈ List.zip (projectParams ps lbs ubs) (List.zip lbs ubs),
      lowerOk t.1 t.2.1 = true ∧ upperOk t.1 t.2.2 = true := by
  induction ps generalizing lbs ubs with
  | nil =>
      intro t ht
      simp [projectParams] at ht
  | cons p ps ih =>
      cases lbs with
      | nil => intro t ht; simp [projectParams] at ht
      | cons lb lbs' =>
          cases ubs with
          | nil => intro t ht; simp [projectParams] at ht
          | cons ub ubs' =>
              intro t ht
              rw [show projectParams (p :: ps) (lb :: lbs') (ub :: ubs') =
                    projectParam p lb ub :: projectParams ps lbs' ubs' from rfl] at ht
              rw [List.zip_cons_cons, List.zip_cons_cons, List.mem_cons] at ht
              rcases ht with rfl | ht
              · have hpair : boundPairLe lb ub = true :=
                  hord (lb, ub) (by rw [List.zip_cons_cons]; exact List.mem_cons_self _ _)
                refine ⟨?_, upperOk_proj p lb ub⟩
                cases lb with
                | none => rfl
                | some l => exact lowerOk_proj p l ub hpair
              · exact ih lbs' ubs'
                  (fun t' ht' => hord t' (by rw [List.zip_cons_cons]; exact List.mem_cons_of_mem _ ht'))
                  t ht

theorem tensorMax_eq_self (p l : Tensor α) (hlen : l.length = p.length)
    (h : (List.zip l p).all (fun x => x.1 ≤ x.2) = true) : tensorMax p l = p := by
  apply List.ext_getElem
  · simp [tensorMax, List.length_zipWith, hlen]
  · intro i h1 h2
    simp only [tensorMax]
    rw [List.getElem_zipWith]
    have hli : i < l.length := by
      simp [tensorMax, List.length_zipWith] at h1
      omega
    have : l[i] ≤ p[i] := by
      rw [List.all_eq_true] at h
      have := h (l[i], p[i]) (by
        rw [List.mem_iff_getElem]
        exact ⟨i, by simp [List.length_zip]; omega, List.getElem_zip⟩)
      simpa using this
    exact max_eq_left this

theorem tensorMin_eq_self (p u : Tensor α) (hlen : u.length = p.length)
    (h : (List.zip p u).all (fun x => x.1 ≤ x.2) = true) : tensorMin p u = p := by
  apply List.ext_getElem
  · simp [tensorMin, List.length_zipWith, hlen]
  · intro i h1 h2
    simp only [tensorMin]
    rw [List.getElem_zipWith]
    have hui : i < u.length := by
      simp [tensorMin, List.length_zipWith] at h1
      omega
    have : p[i] ≤ u[i] := by
      rw [List.all_eq_true] at h
      have := h (p[i], u[i]) (by
        rw [List.mem_iff_getElem]
        exact ⟨i, by simp [List.length_zip]; omega, List.getElem_zip⟩)
      simpa using this
    exact min_eq_left this

/-- C1: for every iteration count, `optimize_type` returns a score trajectory
whose length is exactly the iteration count rounded to the nearest multiple
of ten, with one entry per loop iteration in iteration order: the `i`-th
entry is the score recorded during iteration `i`, no entry is reordered or
dropped. -/
theorem C1_trajectory_length (E : Env α σ Tok Img) (c : CharacterType α)
    (lr : α) (nb_iter : Nat) (eps : α) (se : Bool) :
    ∃ st : LoopState α σ Img,
      optimize_type E c lr nb_iter eps se = Except.ok st ∧
      st.scores.length = round10 nb_iter ∧
      st.scores = (List.range (round10 nb_iter)).map (fun i =>
        E.score_type (optStateAt E (c.lbs eps) (c.ubs eps)
          (E.adamInit c.parameters lr) c.parameters i).2) := by
  refine ⟨_, optimize_type_spec E c lr nb_iter eps se, ?_, rfl⟩
  simp [traj]

/-- C2 counterexample: on a run with an inverted bound pair (lower bound `1`,
upper bound `0`, both defined), after an iteration's projection step the
single parameter element is `0`, which violates its defined lower bound `1`;
the claim's "no precondition relating the two bounds" is false. -/
theorem C2_counterexample :
    (optimize_type envC cInv 1 10 1 false).map (fun st => st.params) =
      Except.ok [[0]] ∧
    lowerOk ([0] : Tensor ℤ) (some [1]) = false := by
  exact ⟨by decide, by decide⟩

/-- C2 (amended): immediately after every iteration's projection step, every
element of a parameter with a defined lower bound is at least that bound and
every element with a defined upper bound is at most that bound, provided
every bound pair that has both sides defined is well ordered (lower bound
element-wise at most upper bound); with an inverted pair the lower-bound part
can fail. -/
theorem C2_bounds_after_projection (E : Env α σ Tok Img)
    (lbs ubs : List (Option (Tensor α))) (o0 : σ) (p0 : List (Tensor α))
    (i : Nat) (hi : i ≠ 0)
    (hord : ∀ t ∈ List.zip lbs ubs, boundPairLe t.1 t.2 = true) :
    ∀ t ∈ List.zip (optStateAt E lbs ubs o0 p0 i).2 (List.zip lbs ubs),
      lowerOk t.1 t.2.1 = true ∧ upperOk t.1 t.2.2 = true := by
  cases i with
  | zero => exact absurd rfl hi
  | succ k => exact projectParams_bounds _ lbs ubs hord

/-- C2 witness: the amended statement instantiated on a concrete
one-parameter run with the well-ordered bound pair `[0] ≤ [1]`, after one
iteration. -/
theorem C2_bounds_witness :
    (1 : Nat) ≠ 0 ∧
    (∀ t ∈ List.zip [some ([0] : Tensor ℤ)] [some ([1] : Tensor ℤ)],
      boundPairLe t.1 t.2 = true) ∧
    (∀ t ∈ List.zip (optStateAt envC [some [0]] [some [1]] () [[0]] 1).2
        (List.zip [some ([0] : Tensor ℤ)] [some ([1] : Tensor ℤ)]),
      lowerOk t.1 t.2.1 = true ∧ upperOk t.1 t.2.2 = true) :=
  ⟨by decide, by decide,
    C2_bounds_after_projection envC [some [0]] [some [1]] () [[0]] 1
      (by decide) (by decide)⟩

/-- C3: the projection step computes, element-wise,
`min (max x lb) ub` with an absent bound acting as the identity; when the
bound pair is inverted the lower clamp is applied first and the upper clamp
second, so the final value is the upper bound. -/
theorem C3_projection_formula (p l u : Tensor α) (i : Nat)
    (hp : i < p.length) (hl : i < l.length) (hu : i < u.length) :
    (projectParam p (some l) (some u))[i]? = some (min (max p[i] l[i]) u[i]) ∧
    (projectParam p (some l) none)[i]? = some (max p[i] l[i]) ∧
    (projectParam p none (some u))[i]? = some (min p[i] u[i]) ∧
    (projectParam p none none)[i]? = some p[i] ∧
    (u[i] < l[i] → (projectParam p (some l) (some u))[i]? = some u[i]) := by
  have hfull : (projectParam p (some l) (some u))[i]? =
      some (min (max p[i] l[i]) u[i]) := by
    simp [projectParam, tensorMax, tensorMin, List.getElem?_zipWith,
      List.getElem?_eq_getElem, hp, hl, hu]
  refine ⟨hfull, ?_, ?_, ?_, ?_⟩
  · simp [projectParam, tensorMax, List.getElem?_zipWith,
      List.getElem?_eq_getElem, hp, hl]
  · simp [projectParam, tensorMin, List.getElem?_zipWith,
      List.getElem?_eq_getElem, hp, hu]
  · simp [projectParam, List.getElem?_eq_getElem, hp]
  · intro hinv
    rw [hfull]
    have : min (max p[i] l[i]) u[i] = u[i] :=
      min_eq_right (le_of_lt (lt_of_lt_of_le hinv (le_max_right _ _)))
    rw [this]

/-- C3 witness: the projection formula instantiated at the single element
`5` with inverted bounds (lower `1`, upper `0`): the result is the upper
bound `0`. -/
theorem C3_projection_witness :
    (0 : Nat) < ([(5 : ℤ)] : Tensor ℤ).length ∧
    (0 : Nat) < ([(1 : ℤ)] : Tensor ℤ).length ∧
    (0 : Nat) < ([(0 : ℤ)] : Tensor ℤ).length ∧
    ((projectParam [(5 : ℤ)] (some [1]) (some [0]))[0]? =
        some (min (max (5 : ℤ) 1) 0) ∧
      (projectParam [(5 : ℤ)] (some [1]) none)[0]? = some (max (5 : ℤ) 1) ∧
      (projectParam [(5 : ℤ)] none (some [0]))[0]? = some (min (5 : ℤ) 0) ∧
      (projectParam [(5 : ℤ)] none none)[0]? = some (5 : ℤ) ∧
      ((0 : ℤ) < 1 → (projectParam [(5 : ℤ)] (some [1]) (some [0]))[0]? =
        some (0 : ℤ))) :=
  ⟨by decide, by decide, by decide,
    C3_projection_formula [(5 : ℤ)] [1] [0] 0 (by decide) (by decide) (by decide)⟩

/-- C4 counterexample: in a concrete run the score recorded at index `0` of
the trajectory is `0`, the score of the Type before iteration `0`'s Adam
update and projection, while the score of the Type after that iteration's
update and projection is `1`; the recording (step 4) does not follow the
update (steps 2-3) within the same iteration. -/
theorem C4_counterexample :
    (optimize_type envC cEx 1 10 1 false).map (fun st => st.scores[0]?) =
      Except.ok (some 0) ∧
    envC.score_type (optStateAt envC (cEx.lbs 1) (cEx.ubs 1)
      (envC.adamInit cEx.parameters 1) cEx.parameters 1).2 = 1 ∧
    (0 : ℤ) ≠ 1 := by
  exact ⟨by decide, by decide, by decide⟩

/-- C4 (amended): the score value recorded at index `idx` of the trajectory
is the model's score of the Type as it stands at the start of iteration
`idx`, that is, after the Adam updates and projections of the previous
iterations only; the iteration's own update and projection are applied
after the score is recorded. -/
theorem C4_score_recorded_before_update (E : Env α σ Tok Img)
    (c : CharacterType α) (lr : α) (nb_iter : Nat) (eps : α) (se : Bool)
    (idx : Nat) (h : idx < round10 nb_iter) :
    ∃ st : LoopState α σ Img,
      optimize_type E c lr nb_iter eps se = Except.ok st ∧
      st.scores[idx]? = some (E.score_type (optStateAt E (c.lbs eps) (c.ubs eps)
        (E.adamInit c.parameters lr) c.parameters idx).2) := by
  refine ⟨_, optimize_type_spec E c lr nb_iter eps se, ?_⟩
  show (traj E (c.lbs eps) (c.ubs eps) (E.adamInit c.parameters lr) c.parameters
      (round10 nb_iter))[idx]? = _
  simp [traj, List.getElem?_map, List.getElem?_range h]

/-- C4 witness: the amended statement instantiated at iteration `3` of a
concrete ten-iteration run. -/
theorem C4_score_witness :
    (3 : Nat) < round10 10 ∧
    (∃ st : LoopState ℤ Unit Unit,
      optimize_type envC cEx 1 10 1 false = Except.ok st ∧
      st.scores[3]? = some (envC.score_type (optStateAt envC (cEx.lbs 1)
        (cEx.ubs 1) (envC.adamInit cEx.parameters 1) cEx.parameters 3).2)) :=
  ⟨by decide, C4_score_recorded_before_update envC cEx 1 10 1 false 3 (by decide)⟩

/-- C5 counterexample: `nb_iter = 7` rounds to `10`, not `0`; the returned
trajectory of a concrete run has length `10`, not `0`, and the parameters
are changed from their initial values. -/
theorem C5_counterexample :
    round10 7 = 10 ∧
    (optimize_type envC cEx 1 7 1 false).map
      (fun st => (st.scores.length, st.params)) = Except.ok (10, [[10]]) ∧
    (10 : Nat) ≠ 0 ∧ ([[(10 : ℤ)]] ≠ cEx.parameters) := by
  exact ⟨by decide, by decide, by decide, by decide⟩

/-- C5 (amended): when `optimize_type` is called with `nb_iter = 7`, the
rounding step yields `10`, so the returned trajectory has length `10` and
the Type's parameters are the result of ten update-and-project steps; an
iteration count that rounds to `0`, such as `4`, yields an empty trajectory
with the parameters unchanged from their initial values. -/
theorem C5_nb7_rounds_to_ten (E : Env α σ Tok Img) (c : CharacterType α)
    (lr eps : α) (se : Bool) :
    round10 7 = 10 ∧
    (∃ st : LoopState α σ Img, optimize_type E c lr 7 eps se = Except.ok st ∧
      st.scores.length = 10 ∧
      st.params = (optStateAt E (c.lbs eps) (c.ubs eps)
        (E.adamInit c.parameters lr) c.parameters 10).2) ∧
    (∃ st : LoopState α σ Img, optimize_type E c lr 4 eps se = Except.ok st ∧
      st.scores = [] ∧ st.params = c.parameters) := by
  have h7 := optimize_type_spec E c lr 7 eps se
  rw [show round10 7 = 10 from by decide] at h7
  have h4 := optimize_type_spec E c lr 4 eps se
  rw [show round10 4 = 0 from by decide] at h4
  exact ⟨by decide, ⟨_, h7, by simp [traj], rfl⟩, ⟨_, h4, by simp [traj], rfl⟩⟩

/-- C6: when the iteration count rounds to zero the loop body never executes
and `optimize_type` returns an empty trajectory without raising: the
checkpoint-interval computation `int(nb_iter / 10)` divides by ten, never by
zero, the guard `idx % 0` is never evaluated, no checkpoint notification is
emitted, and the parameters are untouched. -/
theorem C6_round_zero (E : Env α σ Tok Img) (c : CharacterType α) (lr : α)
    (nb_iter : Nat) (eps : α) (se : Bool) (h : round10 nb_iter = 0) :
    optimize_type E c lr nb_iter eps se =
      Except.ok (LoopState.mk (E.adamInit c.parameters lr) c.parameters
        [] [] [] []) := by
  have hs := optimize_type_spec E c lr nb_iter eps se
  rw [h] at hs
  simpa [optStateAt, traj, checkpoints, gridOf, labelsOf] using hs

/-- C6 witness: a concrete run with `nb_iter = 4` (which rounds to `0`) and
diagnostics enabled returns successfully with no scores and no checkpoint
notifications. -/
theorem C6_round_zero_witness :
    round10 4 = 0 ∧
    optimize_type envC cEx 1 4 1 true =
      Except.ok (LoopState.mk (envC.adamInit cEx.parameters 1) cEx.parameters
        [] [] [] []) :=
  ⟨by decide, C6_round_zero envC cEx 1 4 1 true (by decide)⟩

/-- C7: the projection step is idempotent: on a parameter that already
satisfies its bounds (every element at least its lower bound when present
and at most its upper bound when present, with matching shapes), the
projection leaves every element unchanged. -/
theorem C7_projection_idempotent (p : Tensor α) (lb ub : Option (Tensor α))
    (hsl : shapeOk p lb = true) (hsu : shapeOk p ub = true)
    (hl : lowerOk p lb = true) (hu : upperOk p ub = true) :
    projectParam p lb ub = p := by
  cases lb with
  | none =>
      cases ub with
      | none => rfl
      | some u =>
          exact tensorMin_eq_self p u (by simpa [shapeOk] using hsu)
            (by simpa [upperOk] using hu)
  | some l =>
      have hm : tensorMax p l = p :=
        tensorMax_eq_self p l (by simpa [shapeOk] using hsl)
          (by simpa [lowerOk] using hl)
      cases ub with
      | none =>
          show tensorMax p l = p
          exact hm
      | some u =>
          show tensorMin (tensorMax p l) u = p
          rw [hm]
          exact tensorMin_eq_self p u (by simpa [shapeOk] using hsu)
            (by simpa [upperOk] using hu)

/-- C7 witness: the idempotence statement instantiated at the feasible
single-element parameter `[1]` with bounds `[0]` and `[2]`. -/
theorem C7_projection_witness :
    shapeOk ([1] : Tensor ℤ) (some [0]) = true ∧
    shapeOk ([1] : Tensor ℤ) (some [2]) = true ∧
    lowerOk ([1] : Tensor ℤ) (some [0]) = true ∧
    upperOk ([1] : Tensor ℤ) (some [2]) = true ∧
    projectParam ([1] : Tensor ℤ) (some [0]) (some [2]) = [1] :=
  ⟨by decide, by decide, by decide, by decide,
    C7_projection_idempotent [1] (some [0]) (some [2])
      (by decide) (by decide) (by decide) (by decide)⟩

/-- C8: for every model, Type, learning rate, iteration count and tolerance,
running with diagnostics enabled yields the same returned score trajectory
and the same final parameter values as running with diagnostics disabled:
the diagnostic sampling and rendering influence neither the optimizer state
nor the Type. -/
theorem C8_diagnostics_no_influence (E : Env α σ Tok Img)
    (c : CharacterType α) (lr : α) (nb_iter : Nat) (eps : α) :
    ∃ st1 st2 : LoopState α σ Img,
      optimize_type E c lr nb_iter eps true = Except.ok st1 ∧
      optimize_type E c lr nb_iter eps false = Except.ok st2 ∧
      st1.scores = st2.scores ∧ st1.params = st2.params :=
  ⟨_, _, optimize_type_spec E c lr nb_iter eps true,
    optimize_type_spec E c lr nb_iter eps false, rfl, rfl⟩

/-- C9: the rounding of the iteration count to the nearest multiple of ten
is round-half-to-even: `5` rounds to `0` (so the call returns an empty
trajectory) while `15` rounds to `20`, and every halfway input whose tens
digit is even rounds down rather than up. -/
theorem C9_round_half_to_even :
    round10 5 = 0 ∧ round10 15 = 20 ∧
    (∀ n : Nat, n % 10 = 5 → (n / 10) % 2 = 0 → round10 n = n - 5) ∧
    (∀ (β : Type) [instβ : LinearOrder β] (σ2 Tok2 Img2 : Type)
      (E : Env β σ2 Tok2 Img2) (c : CharacterType β) (lr eps : β) (se : Bool),
      ∃ st : LoopState β σ2 Img2,
        optimize_type E c lr 5 eps se = Except.ok st ∧ st.scores = []) := by
  refine ⟨by decide, by decide, ?_, ?_⟩
  · intro n h5 he
    simp [round10, h5, he]
    omega
  · intro β instβ σ2 Tok2 Img2 E c lr eps se
    have h := @optimize_type_spec β instβ σ2 Tok2 Img2 E c lr 5 eps se
    rw [show round10 5 = 0 from by decide] at h
    exact ⟨_, h, by simp [traj]⟩

/-- C9 witness: the halfway input `25` has an even tens digit and rounds
down to `20`. -/
theorem C9_round_witness :
    25 % 10 = 5 ∧ (25 / 10) % 2 = 0 ∧ round10 25 = 25 - 5 :=
  ⟨by decide, by decide, C9_round_half_to_even.2.2.1 25 (by decide) (by decide)⟩

/-- C10: when the iteration count rounds to a positive multiple of ten,
exactly ten checkpoints occur per run, every checkpoint iteration `idx`
(those with `idx % (count / 10) = 0`) satisfies `idx / (count / 10) < 10`,
and every write into the ten-row diagnostic grid targets a row below ten. -/
theorem C10_checkpoint_rows (E : Env α σ Tok Img) (c : CharacterType α)
    (lr : α) (nb_iter : Nat) (eps : α) (h : round10 nb_iter ≠ 0) :
    ∃ st : LoopState α σ Img,
      optimize_type E c lr nb_iter eps true = Except.ok st ∧
      st.notifs.length = 10 ∧
      (∀ idx ∈ st.notifs, idx % (round10 nb_iter / 10) = 0 ∧
        idx / (round10 nb_iter / 10) < 10) ∧
      (∀ w ∈ st.grid, w.1 < 10) := by
  have hI := round10_div_ne nb_iter h
  have hmul := round10_mul nb_iter
  refine ⟨_, optimize_type_spec E c lr nb_iter eps true, ?_, ?_, ?_⟩
  · show (checkpoints (round10 nb_iter / 10) (round10 nb_iter)).length = 10
    rw [show round10 nb_iter = 10 * (round10 nb_iter / 10) from hmul.symm]
    rw [Nat.mul_div_cancel_left _ (by omega : 0 < 10)]
    exact checkpoints_len_ten _ hI
  · intro idx hidx
    obtain ⟨hlt, hmod⟩ := checkpoints_mem
      (show idx ∈ checkpoints (round10 nb_iter / 10) (round10 nb_iter) from hidx)
    refine ⟨hmod, ?_⟩
    rw [Nat.div_lt_iff_lt_mul (Nat.pos_of_ne_zero hI), hmul]
    exact hlt
  · intro w hw
    have hw' : w ∈ gridOf E (c.lbs eps) (c.ubs eps) (E.adamInit c.parameters lr)
        c.parameters (round10 nb_iter / 10) true (round10 nb_iter) := hw
    simp only [gridOf, if_pos, List.mem_flatMap, List.mem_map] at hw'
    obtain ⟨idx, hidx, i4, _, heq⟩ := hw'
    obtain ⟨hlt, _⟩ := checkpoints_mem hidx
    rw [← heq]
    show idx / (round10 nb_iter / 10) < 10
    rw [Nat.div_lt_iff_lt_mul (Nat.pos_of_ne_zero hI), hmul]
    exact hlt

/-- C10 witness: a concrete ten-iteration diagnostic run has exactly ten
checkpoints, all with in-bounds grid rows. -/
theorem C10_checkpoint_witness :
    round10 10 ≠ 0 ∧
    (∃ st : LoopState ℤ Unit Unit,
      optimize_type envC cEx 1 10 1 true = Except.ok st ∧
      st.notifs.length = 10 ∧
      (∀ idx ∈ st.notifs, idx % (round10 10 / 10) = 0 ∧
        idx / (round10 10 / 10) < 10) ∧
      (∀ w ∈ st.grid, w.1 < 10)) :=
  ⟨by decide, C10_checkpoint_rows envC cEx 1 10 1 (by decide)⟩

end PyBPL
